import Mathlib

/-!
# Verification of the faa2etc pipeline

Shallow embedding of `faa2etc.py`: a batch converter that parses an FAA
aircraft-reference table and an aircraft-registration table (CSV with header
rows), joins them on the manufacturer/model code, and emits a pipe-delimited
table.

CSV sources are modelled after parsing: a `CSVFile` is an optional header row
(`none` for an empty file — `csv.DictReader.fieldnames` is `None` there) and a
list of already-field-split data rows.  Python's `str` is `String`; `None` is
`Option.none`; exceptions are an explicit `PyErr` error monad (`Except`).
-/

namespace Faa2Etc

/-- Python `str.isspace` characters relevant to `str.strip()` (ASCII range). -/
def isPySpace (c : Char) : Bool :=
  c = ' ' || c = '\t' || c = '\n' || c = '\r' || c = '\x0b' || c = '\x0c'

/-- `str.strip()` on the character list: drop whitespace at both ends. -/
def trimChars (l : List Char) : List Char :=
  ((l.dropWhile isPySpace).reverse.dropWhile isPySpace).reverse

/-- Python `str.strip()`. -/
def pstrip (s : String) : String := ⟨trimChars s.data⟩

/-- `true` iff the string has no leading and no trailing whitespace. -/
def noEdgeWS (s : String) : Bool :=
  (match s.data.head? with
   | some c => !isPySpace c
   | none => true) &&
  (match s.data.getLast? with
   | some c => !isPySpace c
   | none => true)

/-- The Python exceptions the pipeline can raise, as an error type.
`osError` — `open` failed; `keyError k` — a `row[k]` lookup on a missing
column; `attributeError` — `None.strip()` on a missing field value;
`httpError` — `response.raise_for_status()`; `badZipFile` — the download is
not a well-formed zip; `missingEntry n` — the
`FileNotFoundError("<n> file not found in database zip file")` raised by
`download_database_file` when a required archive entry is absent. -/
inductive PyErr where
  | osError
  | keyError (k : String)
  | attributeError
  | httpError
  | badZipFile
  | missingEntry (n : String)
  deriving DecidableEq, Repr

/-- A parsed CSV source: `csv.DictReader`'s fieldnames (none for an empty
file) and the field-split data rows (a blank line parses as `[]`). -/
structure CSVFile where
  header : Option (List String)
  rows : List (List String)
  deriving DecidableEq, Repr

/-- A file-path argument to a loader: whether `open` succeeds, and the
content when it does. -/
structure Source where
  openable : Bool
  file : CSVFile
  deriving DecidableEq, Repr

/-- `dict(zip(fieldnames, row))` with `DictReader`'s `restval = None`
padding: each fieldname is paired with its row value, or `none` when the row
is shorter than the header. -/
def dictZip : List String → List String → List (String × Option String)
  | [], _ => []
  | f :: fs, [] => (f, none) :: dictZip fs []
  | f :: fs, v :: vs => (f, some v) :: dictZip fs vs

/-- Python dict lookup on an association list built by insertion order:
a later binding of the same key overwrites an earlier one, so the last
matching pair wins.  `none` models a `KeyError`. -/
def dlookup : List (String × Option String) → String → Option (Option String)
  | [], _ => none
  | (k, v) :: rest, key =>
    match dlookup rest key with
    | some r => some r
    | none => if key = k then some v else none

/-- `row[key]` on a `DictReader` row: raises `KeyError` when the column is
absent from the header, otherwise yields the (possibly `None`) field value. -/
def getItem (fn row : List String) (key : String) : Except PyErr (Option String) :=
  match dlookup (dictZip fn row) key with
  | some v => .ok v
  | none => .error (.keyError key)

/-- `DictReader` iteration skips rows that parse to the empty list
(blank lines). -/
def dataRows (f : CSVFile) : List (List String) :=
  f.rows.filter (fun r => !r.isEmpty)

/-- One entry of the aircraft-reference dictionary: trimmed manufacturer and
model.  (In Python this is a two-key dict, hence always truthy.) -/
structure RefEntry where
  manufacturer : String
  model : String
  deriving DecidableEq, Repr

/-- The aircraft-reference dictionary.  Keys are the *raw* `CODE` values;
a key can be Python `None` when a short row leaves `CODE` unset. -/
abbrev RefMap := Option String → Option RefEntry

/-- The empty dict `{}`. -/
def emptyRefMap : RefMap := fun _ => none

/-- `d[k] = v` on the reference dictionary. -/
def refUpdate (m : RefMap) (k : Option String) (v : RefEntry) : RefMap :=
  fun k' => if k' = k then some v else m k'

/-- One loop iteration of `process_aircraft_reference_file`: read `CODE`,
`MFR`, `MODEL` (in that order — `KeyError` surfaces on the first missing
column), strip manufacturer and model (`AttributeError` when a short row left
one of them `None`), and store under the raw code. -/
def refRowStep (fn : List String) (acc : RefMap) (row : List String) :
    Except PyErr RefMap := do
  let code ← getItem fn row "CODE"
  let manufacturer ← getItem fn row "MFR"
  let model ← getItem fn row "MODEL"
  match manufacturer, model with
  | some m, some d => .ok (refUpdate acc code ⟨pstrip m, pstrip d⟩)
  | _, _ => .error .attributeError

/-- The row loop of `process_aircraft_reference_file`. -/
def refRowsFold (fn : List String) (acc : RefMap) :
    List (List String) → Except PyErr RefMap
  | [] => .ok acc
  | row :: rest => do
    let acc' ← refRowStep fn acc row
    refRowsFold fn acc' rest

/-- `process_aircraft_reference_file`: open the file (OSError on failure),
iterate the `DictReader` rows, and return the code → manufacturer/model
dictionary. -/
def process_aircraft_reference_file (src : Source) : Except PyErr RefMap :=
  if src.openable then
    match src.file.header with
    | none => .ok emptyRefMap
    | some fn => refRowsFold fn emptyRefMap (dataRows src.file)
  else .error .osError

/-- `TYPE_REGISTRATION_MAP` from the source, as its (key, value) pairs. -/
def TYPE_REGISTRATION_MAP : List (String × String) :=
  [("1", "Individual"),
   ("2", "Partnership"),
   ("3", "Corporation"),
   ("4", "Co-Owned"),
   ("5", "Government"),
   ("7", "LLC"),
   ("8", "Non Citizen Corporation"),
   ("9", "Non Citizen Co-Owned")]

/-- `dict.get` on a literal dict with distinct keys (first match). -/
def dictGet : List (String × String) → String → Option String
  | [], _ => none
  | (k, v) :: rest, c => if c = k then some v else dictGet rest c

/-- `TYPE_REGISTRATION_MAP.get(code)` where `code` may be Python `None`
(`get(None)` is `None` since `None` is not a key). -/
def typeLookup (code : Option String) : Option String :=
  code.bind (dictGet TYPE_REGISTRATION_MAP)

/-- Python `x or d` for `x` an optional string: `None` and `""` are falsy. -/
def pyOr (x : Option String) (d : String) : String :=
  match x with
  | some v => if v = "" then d else v
  | none => d

/-- `TYPE_REGISTRATION_MAP.get(registrant_type_code) or "Unknown"`. -/
def registrantTypeOf (code : Option String) : String :=
  pyOr (typeLookup code) "Unknown"

/-- One parsed aircraft registration, as built by
`process_aircraft_registration_file`. -/
structure RegistrationRecord where
  tail_number : String
  aircraft_reference_code : String
  year : String
  owner_name : String
  city : String
  state : String
  mode_s_hex : String
  registrant_type : String
  deriving DecidableEq, Repr

/-- One loop iteration of `process_aircraft_registration_file`: the eight
`row[...]` lookups in source order (`KeyError` on a missing column), the
registrant-type mapping on the *raw* code, then the dict literal whose
`.strip()` calls raise `AttributeError` when a short row left a required
value `None` (the registrant-type code itself is never stripped). -/
def regRow (fn row : List String) : Except PyErr RegistrationRecord := do
  let tail_number ← getItem fn row "N-NUMBER"
  let aircraft_reference_code ← getItem fn row "MFR MDL CODE"
  let year ← getItem fn row "YEAR MFR"
  let owner_name ← getItem fn row "NAME"
  let city ← getItem fn row "CITY"
  let state ← getItem fn row "STATE"
  let mode_s_hex ← getItem fn row "MODE S CODE HEX"
  let registrant_type_code ← getItem fn row "TYPE REGISTRANT"
  let registrant_type := registrantTypeOf registrant_type_code
  match tail_number, aircraft_reference_code, year, owner_name, city, state, mode_s_hex with
  | some tn, some code, some y, some ow, some ci, some st, some mh =>
    .ok { tail_number := pstrip tn
          aircraft_reference_code := pstrip code
          year := pstrip y
          owner_name := pstrip ow
          city := pstrip ci
          state := pstrip st
          mode_s_hex := pstrip mh
          registrant_type := registrant_type }
  | _, _, _, _, _, _, _ => .error .attributeError

/-- The row loop of `process_aircraft_registration_file`, appending one
record per row. -/
def regRowsFold (fn : List String) :
    List (List String) → Except PyErr (List RegistrationRecord)
  | [] => .ok []
  | row :: rest => do
    let r ← regRow fn row
    let rs ← regRowsFold fn rest
    .ok (r :: rs)

/-- `process_aircraft_registration_file`: open the file (OSError on failure),
iterate the `DictReader` rows, return the records in source order. -/
def process_aircraft_registration_file (src : Source) :
    Except PyErr (List RegistrationRecord) :=
  if src.openable then
    match src.file.header with
    | none => .ok []
    | some fn => regRowsFold fn (dataRows src.file)
  else .error .osError

/-- The `fieldnames` list of `create_emcomm_tools_file`. -/
def fieldnames : List String :=
  ["tail_number", "make", "model", "year", "owner_name", "city", "state",
   "mode_s_hex", "registrant_type"]

/-- The row `create_emcomm_tools_file` writes for one registration: pop the
reference code, look it up in the reference dict (`dict.get`), default make
and model to "Unknown" on a miss (a present entry is a non-empty dict, hence
truthy), and lay the fields out in `fieldnames` order. -/
def outputRow (aircraft_reference : RefMap) (r : RegistrationRecord) :
    List String :=
  let aircraft_reference_data := aircraft_reference (some r.aircraft_reference_code)
  let make := match aircraft_reference_data with
    | some e => e.manufacturer
    | none => "Unknown"
  let model := match aircraft_reference_data with
    | some e => e.model
    | none => "Unknown"
  [r.tail_number, make, model, r.year, r.owner_name, r.city, r.state,
   r.mode_s_hex, r.registrant_type]

/-- `create_emcomm_tools_file`: the sequence of rows written to the output —
the header row first, then one row per registration in input order. -/
def create_emcomm_tools_file (aircraft_registrations : List RegistrationRecord)
    (aircraft_reference : RefMap) : List (List String) :=
  fieldnames :: aircraft_registrations.map (outputRow aircraft_reference)

/-- `csv.writer` field quoting (QUOTE_MINIMAL, delimiter `|`): quote a field
containing the delimiter, a quote, or a line break, doubling inner quotes. -/
def csvQuote (s : String) : String :=
  if s.data.any (fun c => c = '|' || c = '"' || c = '\r' || c = '\n') then
    "\"" ++ ⟨s.data.foldr (fun c acc =>
      if c = '"' then '"' :: '"' :: acc else c :: acc) []⟩ ++ "\""
  else s

/-- One serialized output line: pipe-joined fields and the csv module's
default `\r\n` terminator. -/
def writeRowText (row : List String) : String :=
  String.intercalate "|" (row.map csvQuote) ++ "\r\n"

/-- The bytes of the whole output table. -/
def outputText (rows : List (List String)) : String :=
  String.join (rows.map writeRowText)

/-- An HTTP response for `requests.get(database_url)`: the status code and,
when the body is a well-formed zip, the archive as a name ↦ parsed-CSV map. -/
structure Archive where
  entries : List (String × CSVFile)

/-- The downloaded database as `download_database_file` observes it. -/
structure HttpResponse where
  status : Nat
  archive : Option Archive

/-- `zip_file.namelist()`. -/
def namelist (ar : Archive) : List String := ar.entries.map (fun e => e.1)

/-- Reading one extracted archive entry (the entry exists — checked by the
caller; a repeated name extracts its first occurrence). -/
def archiveEntry (ar : Archive) (name : String) : CSVFile :=
  ((ar.entries.filter (fun e => e.1 = name)).head?.map (fun e => e.2)).getD
    ⟨none, []⟩

/-- `download_database_file`: `raise_for_status()` (4xx/5xx → HTTPError),
open the zip (`BadZipFile` when malformed), check `MASTER.txt` then
`ACFTREF.txt` are in the name list (a named `FileNotFoundError` otherwise),
then parse the two extracted entries with the two loaders. -/
def download_database_file (resp : HttpResponse) :
    Except PyErr (RefMap × List RegistrationRecord) :=
  if 400 ≤ resp.status then .error .httpError
  else
    match resp.archive with
    | none => .error .badZipFile
    | some ar =>
      if "MASTER.txt" ∉ namelist ar then .error (.missingEntry "MASTER.txt")
      else if "ACFTREF.txt" ∉ namelist ar then .error (.missingEntry "ACFTREF.txt")
      else do
        let aircraft_reference ←
          process_aircraft_reference_file ⟨true, archiveEntry ar "ACFTREF.txt"⟩
        let aircraft_registrations ←
          process_aircraft_registration_file ⟨true, archiveEntry ar "MASTER.txt"⟩
        .ok (aircraft_reference, aircraft_registrations)

/-- `main`: local mode when both `--registration-file` and `--reference-file`
are supplied (reference parsed first), remote mode otherwise; then the
join/transform writer.  The result is the sequence of output rows (or the
exception that aborted the run, in which case no valid output exists). -/
def main (registration_file reference_file : Option Source)
    (resp : HttpResponse) : Except PyErr (List (List String)) := do
  let (aircraft_reference, aircraft_registrations) ←
    match registration_file, reference_file with
    | some regSrc, some refSrc => do
      let aircraft_reference ← process_aircraft_reference_file refSrc
      let aircraft_registrations ← process_aircraft_registration_file regSrc
      .ok (aircraft_reference, aircraft_registrations)
    | _, _ => download_database_file resp
  .ok (create_emcomm_tools_file aircraft_registrations aircraft_reference)

/-- The serialized output of a whole run. -/
def mainText (registration_file reference_file : Option Source)
    (resp : HttpResponse) : Except PyErr String :=
  (main registration_file reference_file resp).map outputText

/-- Local-mode run (both file options supplied on the command line). -/
def runLocal (reference_src registration_src : Source) :
    Except PyErr (List (List String)) :=
  main (some registration_src) (some reference_src) ⟨200, none⟩

/-! ## String-trimming lemmas -/

/-- The head of a `dropWhile` survivor fails the predicate. -/
lemma dropWhile_head?_false {p : Char → Bool} {l : List Char} {c : Char}
    (h : (List.dropWhile p l).head? = some c) : p c = false := by
  induction l with
  | nil => simp [List.dropWhile] at h
  | cons a t ih =>
    rw [List.dropWhile_cons] at h
    by_cases hp : p a
    · rw [if_pos hp] at h
      exact ih h
    · rw [if_neg hp] at h
      simp only [List.head?_cons, Option.some.injEq] at h
      subst h
      exact Bool.eq_false_iff.mpr hp

/-- `dropWhile` removes an initial segment, so a last element survives. -/
lemma dropWhile_getLast? {p : Char → Bool} {l : List Char} {c : Char}
    (h : (List.dropWhile p l).getLast? = some c) : l.getLast? = some c := by
  induction l with
  | nil => simp [List.dropWhile] at h
  | cons a t ih =>
    rw [List.dropWhile_cons] at h
    by_cases hp : p a
    · rw [if_pos hp] at h
      cases t with
      | nil => simp [List.dropWhile] at h
      | cons b t' => rw [List.getLast?_cons_cons]; exact ih h
    · rwa [if_neg hp] at h

/-- A list whose head fails the predicate is unchanged by `dropWhile`. -/
lemma dropWhile_eq_self_of_head {p : Char → Bool} {l : List Char}
    (h : ∀ c, l.head? = some c → p c = false) : List.dropWhile p l = l := by
  cases l with
  | nil => rfl
  | cons a t =>
    rw [List.dropWhile_cons, if_neg]
    simp [h a rfl]

/-- The first character of a stripped string is not whitespace. -/
lemma trimChars_head?_false {l : List Char} {c : Char}
    (h : (trimChars l).head? = some c) : isPySpace c = false := by
  unfold trimChars at h
  rw [List.head?_reverse] at h
  have h2 := dropWhile_getLast? h
  rw [List.getLast?_reverse] at h2
  exact dropWhile_head?_false h2

/-- The last character of a stripped string is not whitespace. -/
lemma trimChars_getLast?_false {l : List Char} {c : Char}
    (h : (trimChars l).getLast? = some c) : isPySpace c = false := by
  unfold trimChars at h
  rw [List.getLast?_reverse] at h
  exact dropWhile_head?_false h

/-- `str.strip()` output has no leading or trailing whitespace. -/
lemma noEdgeWS_pstrip (s : String) : noEdgeWS (pstrip s) = true := by
  show (noEdgeWS ⟨trimChars s.data⟩) = true
  unfold noEdgeWS
  rw [Bool.and_eq_true]
  constructor
  · cases hh : (trimChars s.data).head? with
    | none => simp [show String.data ⟨trimChars s.data⟩ = trimChars s.data from rfl, hh]
    | some c =>
      simp [show String.data ⟨trimChars s.data⟩ = trimChars s.data from rfl, hh,
        trimChars_head?_false hh]
  · cases hg : (trimChars s.data).getLast? with
    | none => simp [show String.data ⟨trimChars s.data⟩ = trimChars s.data from rfl, hg]
    | some c =>
      simp [show String.data ⟨trimChars s.data⟩ = trimChars s.data from rfl, hg,
        trimChars_getLast?_false hg]

/-- A string with no edge whitespace is a fixed point of `str.strip()`. -/
lemma pstrip_eq_self {s : String} (h : noEdgeWS s = true) : pstrip s = s := by
  unfold noEdgeWS at h
  rw [Bool.and_eq_true] at h
  obtain ⟨h1, h2⟩ := h
  show String.mk (trimChars s.data) = s
  have e1 : List.dropWhile isPySpace s.data = s.data := by
    apply dropWhile_eq_self_of_head
    intro c hc
    rw [hc] at h1
    simpa using h1
  have e2 : List.dropWhile isPySpace s.data.reverse = s.data.reverse := by
    apply dropWhile_eq_self_of_head
    intro c hc
    rw [List.head?_reverse] at hc
    rw [hc] at h2
    simpa using h2
  unfold trimChars
  rw [e1, e2, List.reverse_reverse]

/-- `str.strip()` is idempotent. -/
lemma pstrip_pstrip (s : String) : pstrip (pstrip s) = pstrip s :=
  pstrip_eq_self (noEdgeWS_pstrip s)

/-! ## Dictionary-row lemmas -/

/-- A key absent from the header is absent from every `DictReader` row. -/
lemma dlookup_dictZip_of_not_mem {fn : List String} {key : String}
    (h : key ∉ fn) (row : List String) :
    dlookup (dictZip fn row) key = none := by
  induction fn generalizing row with
  | nil => cases row <;> rfl
  | cons f fs ih =>
    have hkf : key ≠ f := fun e => h (e ▸ List.mem_cons_self f fs)
    have hfs : key ∉ fs := fun m => h (List.mem_cons_of_mem _ m)
    cases row with
    | nil => simp [dictZip, dlookup, ih hfs, hkf]
    | cons v vs => simp [dictZip, dlookup, ih hfs, hkf]

/-- A header key is bound to an actual value in every row at least as long
as the header. -/
lemma dlookup_dictZip_of_mem {fn : List String} {key : String}
    (hm : key ∈ fn) {row : List String} (hl : fn.length ≤ row.length) :
    ∃ v, dlookup (dictZip fn row) key = some (some v) := by
  induction fn generalizing row with
  | nil => cases hm
  | cons f fs ih =>
    cases row with
    | nil => simp at hl
    | cons v vs =>
      simp only [List.length_cons, Nat.succ_le_succ_iff] at hl
      by_cases hfs : key ∈ fs
      · obtain ⟨w, hw⟩ := ih hfs hl
        exact ⟨w, by simp [dictZip, dlookup, hw]⟩
      · have hkf : key = f := by
          rcases List.mem_cons.mp hm with h | h
          · exact h
          · exact absurd h hfs
        subst hkf
        exact ⟨v, by simp [dictZip, dlookup, dlookup_dictZip_of_not_mem hfs]⟩

/-- `row[key]` raises `KeyError` exactly when the column is missing. -/
lemma getItem_of_not_mem {fn : List String} {key : String}
    (h : key ∉ fn) (row : List String) :
    getItem fn row key = .error (.keyError key) := by
  simp [getItem, dlookup_dictZip_of_not_mem h]

/-- `row[key]` yields a real value when the column exists and the row is
long enough. -/
lemma getItem_of_mem {fn : List String} {key : String}
    (hm : key ∈ fn) {row : List String} (hl : fn.length ≤ row.length) :
    ∃ v, getItem fn row key = .ok (some v) := by
  obtain ⟨v, hv⟩ := dlookup_dictZip_of_mem hm hl
  exact ⟨v, by simp [getItem, hv]⟩

/-! ## Reference-loader lemmas -/

/-- A reference row with all columns present and enough fields stores the
stripped manufacturer/model under the raw code. -/
lemma refRowStep_ok {fn : List String} (hC : "CODE" ∈ fn) (hM : "MFR" ∈ fn)
    (hD : "MODEL" ∈ fn) {row : List String} (hl : fn.length ≤ row.length)
    (acc : RefMap) :
    ∃ c m d, getItem fn row "CODE" = .ok (some c) ∧
      getItem fn row "MFR" = .ok (some m) ∧
      getItem fn row "MODEL" = .ok (some d) ∧
      refRowStep fn acc row = .ok (refUpdate acc (some c) ⟨pstrip m, pstrip d⟩) := by
  obtain ⟨c, hc⟩ := getItem_of_mem hC hl
  obtain ⟨m, hm⟩ := getItem_of_mem hM hl
  obtain ⟨d, hd⟩ := getItem_of_mem hD hl
  refine ⟨c, m, d, hc, hm, hd, ?_⟩
  unfold refRowStep
  rw [hc, hm, hd]
  rfl

/-- Whatever a successful reference-row step returns is an update of the
accumulator with stripped manufacturer/model values. -/
lemma refRowStep_inv {fn : List String} {acc : RefMap} {row : List String}
    {acc' : RefMap} (h : refRowStep fn acc row = .ok acc') :
    ∃ k m d, acc' = refUpdate acc k ⟨pstrip m, pstrip d⟩ := by
  unfold refRowStep at h
  rcases h1 : getItem fn row "CODE" with e | c <;> rw [h1] at h
  · exact Except.noConfusion h
  rcases h2 : getItem fn row "MFR" with e | mv <;> rw [h2] at h
  · exact Except.noConfusion h
  rcases h3 : getItem fn row "MODEL" with e | dv <;> rw [h3] at h
  · exact Except.noConfusion h
  rcases mv with _ | m
  · exact Except.noConfusion h
  rcases dv with _ | d
  · exact Except.noConfusion h
  have h' : Except.ok (ε := PyErr) (refUpdate acc c ⟨pstrip m, pstrip d⟩) = .ok acc' := h
  cases h'
  exact ⟨c, m, d, rfl⟩

/-- The reference-row loop succeeds on well-formed tables. -/
lemma refRowsFold_ok {fn : List String} (hC : "CODE" ∈ fn) (hM : "MFR" ∈ fn)
    (hD : "MODEL" ∈ fn) {rows : List (List String)}
    (hw : ∀ row ∈ rows, fn.length ≤ row.length) (acc : RefMap) :
    ∃ m, refRowsFold fn acc rows = .ok m := by
  induction rows generalizing acc with
  | nil => exact ⟨acc, rfl⟩
  | cons row rest ih =>
    obtain ⟨c, mf, md, _, _, _, hstep⟩ :=
      refRowStep_ok hC hM hD (hw row (List.mem_cons_self _ _)) acc
    obtain ⟨m, hm⟩ := ih (fun r hr => hw r (List.mem_cons_of_mem _ hr))
      (refUpdate acc (some c) ⟨pstrip mf, pstrip md⟩)
    refine ⟨m, ?_⟩
    unfold refRowsFold
    rw [hstep]
    exact hm

/-- The raw `CODE` dict value of a `DictReader` row. -/
def codeVal (fn row : List String) : Option (Option String) :=
  dlookup (dictZip fn row) "CODE"

/-- Last-write-wins for the reference dictionary: after the loop, a code is
bound to the stripped manufacturer/model of the *last* row carrying it, and
codes carried by no row keep their accumulator binding. -/
lemma refRowsFold_last_wins {fn : List String} (hC : "CODE" ∈ fn)
    (hM : "MFR" ∈ fn) (hD : "MODEL" ∈ fn) {rows : List (List String)}
    (hw : ∀ row ∈ rows, fn.length ≤ row.length) (acc : RefMap) {m : RefMap}
    (hfold : refRowsFold fn acc rows = .ok m) (c : Option String) :
    (match (rows.filter (fun r => decide (codeVal fn r = some c))).getLast? with
     | some row0 => ∃ vm vd,
         dlookup (dictZip fn row0) "MFR" = some (some vm) ∧
         dlookup (dictZip fn row0) "MODEL" = some (some vd) ∧
         m c = some ⟨pstrip vm, pstrip vd⟩
     | none => m c = acc c) := by
  induction rows generalizing acc with
  | nil =>
    cases hfold
    exact rfl
  | cons row rest ih =>
    obtain ⟨c0, vm0, vd0, hcode, hmfr, hmdl, hstep⟩ :=
      refRowStep_ok hC hM hD (hw row (List.mem_cons_self _ _)) acc
    unfold refRowsFold at hfold
    rw [hstep] at hfold
    have hfold' : refRowsFold fn (refUpdate acc (some c0) ⟨pstrip vm0, pstrip vd0⟩) rest = .ok m :=
      hfold
    have ihr := ih (fun r hr => hw r (List.mem_cons_of_mem _ hr)) _ hfold'
    have hcv : codeVal fn row = some (some c0) := by
      unfold getItem at hcode
      unfold codeVal
      rcases hd : dlookup (dictZip fn row) "CODE" with _ | v <;> rw [hd] at hcode
      · cases hcode
      · cases hcode; rfl
    have hmv : dlookup (dictZip fn row) "MFR" = some (some vm0) := by
      unfold getItem at hmfr
      rcases hd : dlookup (dictZip fn row) "MFR" with _ | v <;> rw [hd] at hmfr
      · cases hmfr
      · cases hmfr; rfl
    have hdv : dlookup (dictZip fn row) "MODEL" = some (some vd0) := by
      unfold getItem at hmdl
      rcases hd : dlookup (dictZip fn row) "MODEL" with _ | v <;> rw [hd] at hmdl
      · cases hmdl
      · cases hmdl; rfl
    rw [List.filter_cons]
    by_cases hpc : codeVal fn row = some c
    · have hc0 : c = some c0 := by
        rw [hcv] at hpc
        exact (Option.some.inj hpc).symm
      rw [if_pos (by simp [hpc])]
      rcases hrest : rest.filter (fun r => decide (codeVal fn r = some c)) with _ | ⟨r1, rl⟩
      · rw [hrest] at ihr
        simp only [List.getLast?_singleton]
        refine ⟨vm0, vd0, hmv, hdv, ?_⟩
        rw [ihr]
        subst hc0
        simp [refUpdate]
      · rw [hrest] at ihr
        rw [List.getLast?_cons_cons]
        exact ihr
    · rw [if_neg (by simp [hpc])]
      rcases hrest : rest.filter (fun r => decide (codeVal fn r = some c)) with _ | ⟨r1, rl⟩
      · rw [hrest] at ihr
        simp only [List.getLast?_nil]
        rw [ihr]
        have hne : c ≠ some c0 := by
          intro he
          rw [hcv, he] at hpc
          exact hpc rfl
        simp [refUpdate, hne]
      · rw [hrest] at ihr
        exact ihr

/-! ## Registration-loader lemmas -/

/-- The columns `process_aircraft_registration_file` reads. -/
def requiredRegCols : List String :=
  ["N-NUMBER", "MFR MDL CODE", "YEAR MFR", "NAME", "CITY", "STATE",
   "MODE S CODE HEX", "TYPE REGISTRANT"]

/-- A registration row with all required columns present and enough fields
parses into the record of its stripped values, with the registrant type
mapped from the *raw* `TYPE REGISTRANT` value. -/
lemma regRow_ok {fn : List String} (hreq : ∀ k ∈ requiredRegCols, k ∈ fn)
    {row : List String} (hl : fn.length ≤ row.length) :
    ∃ tn code y ow ci st mh rt,
      getItem fn row "N-NUMBER" = .ok (some tn) ∧
      getItem fn row "MFR MDL CODE" = .ok (some code) ∧
      getItem fn row "TYPE REGISTRANT" = .ok (some rt) ∧
      regRow fn row = .ok
        { tail_number := pstrip tn
          aircraft_reference_code := pstrip code
          year := pstrip y
          owner_name := pstrip ow
          city := pstrip ci
          state := pstrip st
          mode_s_hex := pstrip mh
          registrant_type := registrantTypeOf (some rt) } := by
  obtain ⟨tn, h1⟩ := getItem_of_mem (hreq "N-NUMBER" (by simp [requiredRegCols])) hl
  obtain ⟨code, h2⟩ := getItem_of_mem (hreq "MFR MDL CODE" (by simp [requiredRegCols])) hl
  obtain ⟨y, h3⟩ := getItem_of_mem (hreq "YEAR MFR" (by simp [requiredRegCols])) hl
  obtain ⟨ow, h4⟩ := getItem_of_mem (hreq "NAME" (by simp [requiredRegCols])) hl
  obtain ⟨ci, h5⟩ := getItem_of_mem (hreq "CITY" (by simp [requiredRegCols])) hl
  obtain ⟨st, h6⟩ := getItem_of_mem (hreq "STATE" (by simp [requiredRegCols])) hl
  obtain ⟨mh, h7⟩ := getItem_of_mem (hreq "MODE S CODE HEX" (by simp [requiredRegCols])) hl
  obtain ⟨rt, h8⟩ := getItem_of_mem (hreq "TYPE REGISTRANT" (by simp [requiredRegCols])) hl
  refine ⟨tn, code, y, ow, ci, st, mh, rt, h1, h2, h8, ?_⟩
  unfold regRow
  rw [h1, h2, h3, h4, h5, h6, h7, h8]
  rfl

/-- Every record a successful row parse returns consists of stripped fields
plus a registrant type computed by `registrantTypeOf` from the raw code. -/
lemma regRow_inv {fn row : List String} {r : RegistrationRecord}
    (h : regRow fn row = .ok r) :
    (∃ v, r.tail_number = pstrip v) ∧
    (∃ v, r.aircraft_reference_code = pstrip v) ∧
    (∃ v, r.year = pstrip v) ∧
    (∃ v, r.owner_name = pstrip v) ∧
    (∃ v, r.city = pstrip v) ∧
    (∃ v, r.state = pstrip v) ∧
    (∃ v, r.mode_s_hex = pstrip v) ∧
    (∃ v, getItem fn row "TYPE REGISTRANT" = .ok v ∧
      r.registrant_type = registrantTypeOf v) := by
  unfold regRow at h
  rcases g1 : getItem fn row "N-NUMBER" with e | tn <;> rw [g1] at h
  · exact Except.noConfusion h
  rcases g2 : getItem fn row "MFR MDL CODE" with e | code <;> rw [g2] at h
  · exact Except.noConfusion h
  rcases g3 : getItem fn row "YEAR MFR" with e | y <;> rw [g3] at h
  · exact Except.noConfusion h
  rcases g4 : getItem fn row "NAME" with e | ow <;> rw [g4] at h
  · exact Except.noConfusion h
  rcases g5 : getItem fn row "CITY" with e | ci <;> rw [g5] at h
  · exact Except.noConfusion h
  rcases g6 : getItem fn row "STATE" with e | st <;> rw [g6] at h
  · exact Except.noConfusion h
  rcases g7 : getItem fn row "MODE S CODE HEX" with e | mh <;> rw [g7] at h
  · exact Except.noConfusion h
  rcases g8 : getItem fn row "TYPE REGISTRANT" with e | rt <;> rw [g8] at h
  · exact Except.noConfusion h
  rcases tn with _ | tn
  · exact Except.noConfusion h
  rcases code with _ | code
  · exact Except.noConfusion h
  rcases y with _ | y
  · exact Except.noConfusion h
  rcases ow with _ | ow
  · exact Except.noConfusion h
  rcases ci with _ | ci
  · exact Except.noConfusion h
  rcases st with _ | st
  · exact Except.noConfusion h
  rcases mh with _ | mh
  · exact Except.noConfusion h
  have h' : Except.ok (ε := PyErr)
      { tail_number := pstrip tn
        aircraft_reference_code := pstrip code
        year := pstrip y
        owner_name := pstrip ow
        city := pstrip ci
        state := pstrip st
        mode_s_hex := pstrip mh
        registrant_type := registrantTypeOf rt } = .ok r := h
  cases h'
  exact ⟨⟨tn, rfl⟩, ⟨code, rfl⟩, ⟨y, rfl⟩, ⟨ow, rfl⟩, ⟨ci, rfl⟩, ⟨st, rfl⟩,
    ⟨mh, rfl⟩, ⟨rt, rfl, rfl⟩⟩

/-- The registration-row loop succeeds on well-formed tables, yielding one
record per row. -/
lemma regRowsFold_ok {fn : List String} (hreq : ∀ k ∈ requiredRegCols, k ∈ fn)
    {rows : List (List String)} (hw : ∀ row ∈ rows, fn.length ≤ row.length) :
    ∃ l, regRowsFold fn rows = .ok l ∧ l.length = rows.length := by
  induction rows with
  | nil => exact ⟨[], rfl, rfl⟩
  | cons row rest ih =>
    obtain ⟨l, hl, hlen⟩ := ih (fun r hr => hw r (List.mem_cons_of_mem _ hr))
    obtain ⟨tn, code, y, ow, ci, st, mh, rt, _, _, _, hrow⟩ :=
      regRow_ok hreq (hw row (List.mem_cons_self _ _))
    have hfold : regRowsFold fn (row :: rest) = .ok
        (({ tail_number := pstrip tn
            aircraft_reference_code := pstrip code
            year := pstrip y
            owner_name := pstrip ow
            city := pstrip ci
            state := pstrip st
            mode_s_hex := pstrip mh
            registrant_type := registrantTypeOf (some rt) } : RegistrationRecord) :: l) := by
      unfold regRowsFold
      rw [hrow, hl]
      rfl
    exact ⟨_, hfold, by simp [hlen]⟩

/-- Every record the registration-row loop returns came from one row. -/
lemma regRowsFold_mem {fn : List String} {rows : List (List String)}
    {l : List RegistrationRecord} (h : regRowsFold fn rows = .ok l) :
    ∀ r ∈ l, ∃ row, regRow fn row = .ok r := by
  induction rows generalizing l with
  | nil =>
    cases h
    intro r hr
    cases hr
  | cons row rest ih =>
    unfold regRowsFold at h
    rcases hrow : regRow fn row with e | r0 <;> rw [hrow] at h
    · exact Except.noConfusion h
    rcases hrest : regRowsFold fn rest with e | l0 <;> rw [hrest] at h
    · exact Except.noConfusion h
    have h' : Except.ok (ε := PyErr) (r0 :: l0) = .ok l := h
    cases h'
    intro r hr
    rcases List.mem_cons.mp hr with rfl | hr'
    · exact ⟨row, hrow⟩
    · exact ih hrest r hr'

/-! ## Loader-level lemmas -/

/-- The reference loader succeeds on an openable source whose header has the
three required columns and whose data rows are at least header-wide. -/
lemma process_ref_ok {src : Source} (hopen : src.openable = true)
    {fn : List String} (hh : src.file.header = some fn) (hC : "CODE" ∈ fn)
    (hM : "MFR" ∈ fn) (hD : "MODEL" ∈ fn)
    (hw : ∀ row ∈ dataRows src.file, fn.length ≤ row.length) :
    ∃ m, process_aircraft_reference_file src = .ok m := by
  obtain ⟨m, hm⟩ := refRowsFold_ok hC hM hD hw emptyRefMap
  refine ⟨m, ?_⟩
  unfold process_aircraft_reference_file
  rw [if_pos hopen, hh]
  exact hm

/-- The registration loader succeeds on a well-formed source, producing one
record per (non-blank) data row. -/
lemma process_reg_ok {src : Source} (hopen : src.openable = true)
    {fn : List String} (hh : src.file.header = some fn)
    (hreq : ∀ k ∈ requiredRegCols, k ∈ fn)
    (hw : ∀ row ∈ dataRows src.file, fn.length ≤ row.length) :
    ∃ l, process_aircraft_registration_file src = .ok l ∧
      l.length = (dataRows src.file).length := by
  obtain ⟨l, hl, hlen⟩ := regRowsFold_ok hreq hw
  refine ⟨l, ?_, hlen⟩
  unfold process_aircraft_registration_file
  rw [if_pos hopen, hh]
  exact hl

/-- Every record the registration loader returns came from one row parse. -/
lemma process_reg_inv {src : Source} {l : List RegistrationRecord}
    (h : process_aircraft_registration_file src = .ok l) :
    ∀ r ∈ l, ∃ fn row, regRow fn row = .ok r := by
  unfold process_aircraft_registration_file at h
  by_cases ho : src.openable
  · rw [if_pos ho] at h
    rcases hh : src.file.header with _ | fn <;> rw [hh] at h
    · cases h
      intro r hr
      cases hr
    · intro r hr
      obtain ⟨row, hrow⟩ := regRowsFold_mem h r hr
      exact ⟨fn, row, hrow⟩
  · rw [if_neg ho] at h
    exact Except.noConfusion h

/-- The reference-fold invariant: every stored entry consists of stripped
manufacturer/model values. -/
lemma refRowsFold_entries {fn : List String} {rows : List (List String)}
    {acc m : RefMap} (h : refRowsFold fn acc rows = .ok m)
    (hacc : ∀ k e, acc k = some e →
      (∃ v, e.manufacturer = pstrip v) ∧ (∃ v, e.model = pstrip v)) :
    ∀ k e, m k = some e →
      (∃ v, e.manufacturer = pstrip v) ∧ (∃ v, e.model = pstrip v) := by
  induction rows generalizing acc with
  | nil =>
    cases h
    exact hacc
  | cons row rest ih =>
    unfold refRowsFold at h
    rcases hstep : refRowStep fn acc row with e | acc' <;> rw [hstep] at h
    · exact Except.noConfusion h
    obtain ⟨k0, m0, d0, rfl⟩ := refRowStep_inv hstep
    refine ih h ?_
    intro k e hk
    unfold refUpdate at hk
    by_cases hkk : k = k0
    · rw [if_pos hkk] at hk
      cases hk
      exact ⟨⟨m0, rfl⟩, ⟨d0, rfl⟩⟩
    · rw [if_neg hkk] at hk
      exact hacc k e hk

/-- Every entry the reference loader returns has stripped values. -/
lemma process_ref_entries {src : Source} {m : RefMap}
    (h : process_aircraft_reference_file src = .ok m) :
    ∀ k e, m k = some e →
      (∃ v, e.manufacturer = pstrip v) ∧ (∃ v, e.model = pstrip v) := by
  unfold process_aircraft_reference_file at h
  by_cases ho : src.openable
  · rw [if_pos ho] at h
    rcases hh : src.file.header with _ | fn <;> rw [hh] at h
    · cases h
      intro k e hk
      exact Option.noConfusion hk
    · exact refRowsFold_entries h (fun k e hk => Option.noConfusion hk)
  · rw [if_neg ho] at h
    exact Except.noConfusion h

/-! ## Registrant-type lemmas -/

/-- A key matching no pair of a literal dict gets `None`. -/
lemma dictGet_of_not_mem {d : List (String × String)} {c : String}
    (h : ∀ kv ∈ d, c ≠ kv.1) : dictGet d c = none := by
  induction d with
  | nil => rfl
  | cons kv rest ih =>
    obtain ⟨k, v⟩ := kv
    have hne : c ≠ k := h (k, v) (List.mem_cons_self _ _)
    rw [show dictGet ((k, v) :: rest) c = if c = k then some v else dictGet rest c
      from rfl, if_neg hne]
    exact ih fun p hp => h p (List.mem_cons_of_mem _ hp)

/-- A registrant-type code outside the enumeration keys maps to "Unknown". -/
lemma registrantTypeOf_of_not_mem {c : String}
    (hc : c ∉ ["1", "2", "3", "4", "5", "7", "8", "9"]) :
    registrantTypeOf (some c) = "Unknown" := by
  have hget : dictGet TYPE_REGISTRATION_MAP c = none := by
    apply dictGet_of_not_mem
    intro kv hkv
    simp only [List.mem_cons, List.not_mem_nil, or_false] at hc
    push_neg at hc
    simp only [TYPE_REGISTRATION_MAP, List.mem_cons, List.not_mem_nil, or_false] at hkv
    rcases hkv with rfl | rfl | rfl | rfl | rfl | rfl | rfl | rfl <;> simp_all
  simp [registrantTypeOf, typeLookup, Option.bind, hget, pyOr]

/-- Whatever `registrantTypeOf` returns has no edge whitespace. -/
lemma noEdgeWS_registrantTypeOf (v : Option String) :
    noEdgeWS (registrantTypeOf v) = true := by
  rcases v with _ | c
  · decide
  · show noEdgeWS (pyOr (dictGet TYPE_REGISTRATION_MAP c) "Unknown") = true
    simp only [TYPE_REGISTRATION_MAP, dictGet]
    split_ifs <;> decide

/-! ## Claim C1 -/

/-- C1: for every sequence of registration records and every reference
mapping, the Join/Transform Writer emits first a header row with the fixed
column order `tail_number, make, model, year, owner_name, city, state,
mode_s_hex, registrant_type`, then exactly one pipe-delimited output row per
input record, in input order; for an empty input sequence the output is the
header row only. -/
theorem C1_writer_header_and_cardinality
    (aircraft_reference : RefMap)
    (aircraft_registrations : List RegistrationRecord) :
    (create_emcomm_tools_file aircraft_registrations aircraft_reference).head? =
      some fieldnames ∧
    fieldnames = ["tail_number", "make", "model", "year", "owner_name", "city",
      "state", "mode_s_hex", "registrant_type"] ∧
    (create_emcomm_tools_file aircraft_registrations aircraft_reference).length =
      aircraft_registrations.length + 1 ∧
    (∀ i : Nat,
      (create_emcomm_tools_file aircraft_registrations aircraft_reference)[i + 1]? =
        (aircraft_registrations[i]?).map (outputRow aircraft_reference)) ∧
    create_emcomm_tools_file [] aircraft_reference = [fieldnames] ∧
    outputText (create_emcomm_tools_file [] aircraft_reference) =
      "tail_number|make|model|year|owner_name|city|state|mode_s_hex|registrant_type\r\n" := by
  refine ⟨rfl, rfl, by simp [create_emcomm_tools_file], ?_, rfl, rfl⟩
  intro i
  simp [create_emcomm_tools_file]

/-! ## Claim C2 -/

/-- C2: for every registration record processed by the Join/Transform
Writer, if its reference code is present as a key in the reference mapping
the emitted make and model are that entry's manufacturer and model, and if
the code has no entry in the mapping — including when the code is the empty
string — the emitted make and model are both the literal "Unknown". -/
theorem C2_join_default (aircraft_reference : RefMap) (r : RegistrationRecord) :
    (∀ e, aircraft_reference (some r.aircraft_reference_code) = some e →
      outputRow aircraft_reference r =
        [r.tail_number, e.manufacturer, e.model, r.year, r.owner_name, r.city,
         r.state, r.mode_s_hex, r.registrant_type]) ∧
    (aircraft_reference (some r.aircraft_reference_code) = none →
      outputRow aircraft_reference r =
        [r.tail_number, "Unknown", "Unknown", r.year, r.owner_name, r.city,
         r.state, r.mode_s_hex, r.registrant_type]) := by
  constructor
  · intro e he
    simp [outputRow, he]
  · intro he
    simp [outputRow, he]

/-- A one-entry reference dict for exercising the join. -/
def c2RefMap : RefMap := refUpdate emptyRefMap (some "ABC") ⟨"CESSNA", "172S"⟩

/-- A registration whose code is found in `c2RefMap`. -/
def c2RecHit : RegistrationRecord :=
  ⟨"N12345", "ABC", "2005", "Jane Doe", "Austin", "TX", "A12345", "Individual"⟩

/-- A registration whose (empty) code is not in `c2RefMap`. -/
def c2RecMiss : RegistrationRecord :=
  ⟨"N99999", "", "2005", "Jane Doe", "Austin", "TX", "A12345", "Individual"⟩

theorem C2_witness :
    outputRow c2RefMap c2RecHit =
      ["N12345", "CESSNA", "172S", "2005", "Jane Doe", "Austin", "TX",
       "A12345", "Individual"] ∧
    outputRow c2RefMap c2RecMiss =
      ["N99999", "Unknown", "Unknown", "2005", "Jane Doe", "Austin", "TX",
       "A12345", "Individual"] :=
  ⟨(C2_join_default c2RefMap c2RecHit).1 ⟨"CESSNA", "172S"⟩ (by decide),
   (C2_join_default c2RefMap c2RecMiss).2 (by decide)⟩

/-! ## Claim C3 -/

/-- C3: the Registration Table Loader maps the registrant-type code through
exactly the fixed enumeration 1→Individual, 2→Partnership, 3→Corporation,
4→Co-Owned, 5→Government, 7→LLC, 8→Non Citizen Corporation,
9→Non Citizen Co-Owned; any code outside this set, including the blank code,
yields the literal "Unknown" — and the registrant type of every record the
loader produces is computed by exactly this function from the row's raw
`TYPE REGISTRANT` value. -/
theorem C3_registrant_type_enumeration :
    registrantTypeOf (some "1") = "Individual" ∧
    registrantTypeOf (some "2") = "Partnership" ∧
    registrantTypeOf (some "3") = "Corporation" ∧
    registrantTypeOf (some "4") = "Co-Owned" ∧
    registrantTypeOf (some "5") = "Government" ∧
    registrantTypeOf (some "7") = "LLC" ∧
    registrantTypeOf (some "8") = "Non Citizen Corporation" ∧
    registrantTypeOf (some "9") = "Non Citizen Co-Owned" ∧
    (∀ c : String, c ∉ ["1", "2", "3", "4", "5", "7", "8", "9"] →
      registrantTypeOf (some c) = "Unknown") ∧
    registrantTypeOf (some "") = "Unknown" ∧
    registrantTypeOf none = "Unknown" ∧
    (∀ fn row r, regRow fn row = .ok r →
      ∃ v, getItem fn row "TYPE REGISTRANT" = .ok v ∧
        r.registrant_type = registrantTypeOf v) := by
  refine ⟨by decide, by decide, by decide, by decide, by decide, by decide,
    by decide, by decide, fun c hc => registrantTypeOf_of_not_mem hc, by decide,
    by decide, ?_⟩
  intro fn row r h
  exact (regRow_inv h).2.2.2.2.2.2.2

theorem C3_witness :
    registrantTypeOf (some "6") = "Unknown" ∧
    registrantTypeOf (some "1") = "Individual" := by
  have h := C3_registrant_type_enumeration
  exact ⟨h.2.2.2.2.2.2.2.2.1 "6" (by decide), h.1⟩

/-! ## Claim C9 -/

/-- C9: the pipeline is deterministic — two runs over byte-identical
reference and registration inputs (and an identical remote response, when
one is consulted) produce byte-identical serialized output tables. -/
theorem C9_deterministic
    (regA refA : Option Source) (respA : HttpResponse)
    (regB refB : Option Source) (respB : HttpResponse)
    (h1 : regA = regB) (h2 : refA = refB) (h3 : respA = respB) :
    mainText regA refA respA = mainText regB refB respB := by
  subst h1
  subst h2
  subst h3
  rfl

theorem C9_witness :
    mainText none none ⟨500, none⟩ = mainText none none ⟨500, none⟩ :=
  C9_deterministic none none ⟨500, none⟩ none none ⟨500, none⟩ rfl rfl rfl

/-! ## Claim C4 -/

/-- C4: for every reference table in which a code appears in multiple data
rows, the Reference Table Loader's returned mapping binds that code to the
trimmed manufacturer and model of the last such row (last-write-wins). -/
theorem C4_last_write_wins {src : Source} {fn : List String}
    (hopen : src.openable = true) (hh : src.file.header = some fn)
    (hC : "CODE" ∈ fn) (hM : "MFR" ∈ fn) (hD : "MODEL" ∈ fn)
    (hw : ∀ row ∈ dataRows src.file, fn.length ≤ row.length)
    (c : Option String) {dups : List (List String)}
    (hdups : dups =
      (dataRows src.file).filter (fun r => decide (codeVal fn r = some c)))
    (hmult : 2 ≤ dups.length) {row0 : List String}
    (hlast : dups.getLast? = some row0) :
    ∃ m vm vd, process_aircraft_reference_file src = .ok m ∧
      dlookup (dictZip fn row0) "MFR" = some (some vm) ∧
      dlookup (dictZip fn row0) "MODEL" = some (some vd) ∧
      m c = some ⟨pstrip vm, pstrip vd⟩ := by
  obtain ⟨m, hm⟩ := process_ref_ok hopen hh hC hM hD hw
  have hfold : refRowsFold fn emptyRefMap (dataRows src.file) = .ok m := by
    unfold process_aircraft_reference_file at hm
    rw [if_pos hopen, hh] at hm
    exact hm
  have hlw := refRowsFold_last_wins hC hM hD hw emptyRefMap hfold c
  rw [← hdups, hlast] at hlw
  obtain ⟨vm, vd, h1, h2, h3⟩ := hlw
  exact ⟨m, vm, vd, hm, h1, h2, h3⟩

/-- A reference table in which code "AAA" appears twice. -/
def c4Src : Source :=
  ⟨true, ⟨some ["CODE", "MFR", "MODEL"],
    [["AAA", "C1", "M1"], ["AAA", "C2", "M2"]]⟩⟩

theorem C4_witness :
    (process_aircraft_reference_file c4Src).map (fun m => m (some "AAA")) =
      .ok (some ⟨"C2", "M2"⟩) := by
  obtain ⟨m, vm, vd, hm, h1, h2, h3⟩ := @C4_last_write_wins c4Src
    ["CODE", "MFR", "MODEL"] rfl rfl (by decide) (by decide) (by decide)
    (by decide) (some "AAA") [["AAA", "C1", "M1"], ["AAA", "C2", "M2"]]
    (by decide) (by decide) ["AAA", "C2", "M2"] (by decide)
  have hvm : "C2" = vm :=
    Option.some.inj (Option.some.inj
      (h1 : (some (some "C2") : Option (Option String)) = some (some vm)))
  have hvd : "M2" = vd :=
    Option.some.inj (Option.some.inj
      (h2 : (some (some "M2") : Option (Option String)) = some (some vd)))
  subst hvm
  subst hvd
  rw [hm]
  show Except.ok (m (some "AAA")) = _
  rw [h3]
  rfl

/-! ## Claim C5 -/

/-- A registration table whose single data row is missing every required
field past the tail number (a row shorter than the header). -/
def c5ShortSrc : Source :=
  ⟨true, ⟨some ["N-NUMBER", "MFR MDL CODE", "YEAR MFR", "NAME", "CITY",
    "STATE", "MODE S CODE HEX", "TYPE REGISTRANT"], [["N12345"]]⟩⟩

/-- C5 counterexample: a data row with missing required fields does NOT
propagate as a record — the loader raises (Python: `None.strip()` is an
`AttributeError`), so the claim "produces exactly one RegistrationRecord
without raising" is false for such rows. -/
theorem C5_counterexample :
    process_aircraft_registration_file c5ShortSrc = .error .attributeError := by
  rfl

/-- C5 amended: every *full-width* data row (all required columns present in
the header and the row carrying a value for each header column, even an
empty or whitespace one) yields exactly one RegistrationRecord, no row is
skipped or dropped (blank lines excepted — `DictReader` never surfaces
those), and the loader returns without raising; a row shorter than the
header instead aborts the loader with an AttributeError. -/
theorem C5_amended {src : Source} {fn : List String}
    (hopen : src.openable = true) (hh : src.file.header = some fn)
    (hreq : ∀ k ∈ requiredRegCols, k ∈ fn)
    (hw : ∀ row ∈ dataRows src.file, fn.length ≤ row.length) :
    ∃ l, process_aircraft_registration_file src = .ok l ∧
      l.length = (dataRows src.file).length :=
  process_reg_ok hopen hh hreq hw

/-- A registration table with two full rows and one blank line. -/
def c5GoodSrc : Source :=
  ⟨true, ⟨some ["N-NUMBER", "MFR MDL CODE", "YEAR MFR", "NAME", "CITY",
    "STATE", "MODE S CODE HEX", "TYPE REGISTRANT"],
    [["N1", "AAA", "2005", "Jane", "Austin", "TX", "A1", "1"],
     [],
     ["N1", "AAA", "2005", "Jane", "Austin", "TX", "A1", "1"]]⟩⟩

theorem C5_witness :
    (process_aircraft_registration_file c5GoodSrc).map List.length = .ok 2 := by
  obtain ⟨l, hl, hlen⟩ := @C5_amended c5GoodSrc
    ["N-NUMBER", "MFR MDL CODE", "YEAR MFR", "NAME", "CITY", "STATE",
      "MODE S CODE HEX", "TYPE REGISTRANT"] rfl rfl (by decide) (by decide)
  rw [hl]
  show Except.ok l.length = _
  rw [hlen]
  rfl

/-! ## Claim C6 -/

/-- An openable reference source whose header lacks every required column
but which has no data rows. -/
def c6HeaderOnlySrc : Source := ⟨true, ⟨some ["X"], []⟩⟩

/-- C6 counterexample: the loader does NOT fail when a required column
header is absent — with no data rows it returns normally (the `KeyError`
would only surface while reading a row), refuting the "only if" direction of
the claimed equivalence. -/
theorem C6_counterexample :
    (["X"].contains "CODE") = false ∧
    process_aircraft_reference_file c6HeaderOnlySrc = .ok emptyRefMap := by
  exact ⟨rfl, rfl⟩

/-- C6 amended: each loader fails when its source cannot be opened; a
missing required column makes it fail only when at least one (non-blank)
data row is present, the error surfacing at the first such row — with no
data rows the loader returns normally (an empty result) even though the
header is absent; and on an openable source with all required columns and
rows at least header-wide it returns normally.  (A row shorter than the
header can additionally abort a loader with an AttributeError, cf. the C5
counterexample.) -/
theorem C6_amended :
    (∀ src : Source, src.openable = false →
      process_aircraft_reference_file src = .error .osError ∧
      process_aircraft_registration_file src = .error .osError) ∧
    (∀ src : Source, ∀ fn, src.openable = true → src.file.header = some fn →
      dataRows src.file = [] →
      process_aircraft_reference_file src = .ok emptyRefMap ∧
      process_aircraft_registration_file src = .ok []) ∧
    (∀ src : Source, ∀ fn row rest, src.openable = true →
      src.file.header = some fn → dataRows src.file = row :: rest →
      "CODE" ∉ fn →
      process_aircraft_reference_file src = .error (.keyError "CODE")) ∧
    (∀ src : Source, ∀ fn row rest, src.openable = true →
      src.file.header = some fn → dataRows src.file = row :: rest →
      "N-NUMBER" ∉ fn →
      process_aircraft_registration_file src = .error (.keyError "N-NUMBER")) ∧
    (∀ src : Source, ∀ fn, src.openable = true → src.file.header = some fn →
      "CODE" ∈ fn → "MFR" ∈ fn → "MODEL" ∈ fn →
      (∀ row ∈ dataRows src.file, fn.length ≤ row.length) →
      ∃ m, process_aircraft_reference_file src = .ok m) ∧
    (∀ src : Source, ∀ fn, src.openable = true → src.file.header = some fn →
      (∀ k ∈ requiredRegCols, k ∈ fn) →
      (∀ row ∈ dataRows src.file, fn.length ≤ row.length) →
      ∃ l, process_aircraft_registration_file src = .ok l) := by
  refine ⟨?_, ?_, ?_, ?_, ?_, ?_⟩
  · intro src ho
    constructor
    · unfold process_aircraft_reference_file
      rw [if_neg (by simp [ho])]
    · unfold process_aircraft_registration_file
      rw [if_neg (by simp [ho])]
  · intro src fn ho hh hrows
    constructor
    · unfold process_aircraft_reference_file
      rw [if_pos ho, hh, hrows]
      rfl
    · unfold process_aircraft_registration_file
      rw [if_pos ho, hh, hrows]
      rfl
  · intro src fn row rest ho hh hrows hmem
    unfold process_aircraft_reference_file
    rw [if_pos ho, hh, hrows]
    unfold refRowsFold refRowStep
    rw [getItem_of_not_mem hmem row]
    rfl
  · intro src fn row rest ho hh hrows hmem
    unfold process_aircraft_registration_file
    rw [if_pos ho, hh, hrows]
    unfold regRowsFold regRow
    rw [getItem_of_not_mem hmem row]
    rfl
  · intro src fn ho hh hC hM hD hw
    exact process_ref_ok ho hh hC hM hD hw
  · intro src fn ho hh hreq hw
    obtain ⟨l, hl, _⟩ := process_reg_ok ho hh hreq hw
    exact ⟨l, hl⟩

theorem C6_witness :
    process_aircraft_reference_file ⟨false, ⟨none, []⟩⟩ = .error .osError ∧
    process_aircraft_reference_file ⟨true, ⟨some ["A"], [["x"]]⟩⟩ =
      .error (.keyError "CODE") ∧
    process_aircraft_registration_file ⟨true, ⟨some ["A"], [["x"]]⟩⟩ =
      .error (.keyError "N-NUMBER") := by
  have h := C6_amended
  refine ⟨(h.1 ⟨false, ⟨none, []⟩⟩ rfl).1, ?_, ?_⟩
  · exact h.2.2.1 ⟨true, ⟨some ["A"], [["x"]]⟩⟩ ["A"] ["x"] [] rfl rfl rfl (by decide)
  · exact h.2.2.2.1 ⟨true, ⟨some ["A"], [["x"]]⟩⟩ ["A"] ["x"] [] rfl rfl rfl (by decide)

/-! ## Claim C7 -/

/-- C7: in remote mode, once the download succeeded and the archive opened,
a missing `MASTER.txt` or `ACFTREF.txt` entry aborts acquisition with the
dedicated missing-entry failure — an error distinct by construction from the
transport and generic-archive errors — and the whole run yields no output. -/
theorem C7_missing_entry {resp : HttpResponse} {ar : Archive}
    (hstatus : resp.status < 400) (har : resp.archive = some ar)
    (hmiss : "MASTER.txt" ∉ namelist ar ∨ "ACFTREF.txt" ∉ namelist ar) :
    ∃ n, (n = "MASTER.txt" ∨ n = "ACFTREF.txt") ∧
      download_database_file resp = .error (.missingEntry n) ∧
      main none none resp = .error (.missingEntry n) ∧
      (∀ k, PyErr.missingEntry n ≠ PyErr.badZipFile ∧
        PyErr.missingEntry n ≠ PyErr.httpError ∧
        PyErr.missingEntry n ≠ PyErr.osError ∧
        PyErr.missingEntry n ≠ PyErr.keyError k) := by
  have hdist : ∀ n k, PyErr.missingEntry n ≠ PyErr.badZipFile ∧
      PyErr.missingEntry n ≠ PyErr.httpError ∧
      PyErr.missingEntry n ≠ PyErr.osError ∧
      PyErr.missingEntry n ≠ PyErr.keyError k :=
    fun n k => ⟨fun h => PyErr.noConfusion h, fun h => PyErr.noConfusion h,
      fun h => PyErr.noConfusion h, fun h => PyErr.noConfusion h⟩
  by_cases hM : "MASTER.txt" ∈ namelist ar
  · have hA : "ACFTREF.txt" ∉ namelist ar := by
      rcases hmiss with h | h
      · exact absurd hM h
      · exact h
    have hdl : download_database_file resp = .error (.missingEntry "ACFTREF.txt") := by
      unfold download_database_file
      rw [if_neg (Nat.not_le.mpr hstatus), har]
      show (if "MASTER.txt" ∉ namelist ar then _ else _) = _
      rw [if_neg (not_not_intro hM), if_pos hA]
    refine ⟨"ACFTREF.txt", Or.inr rfl, hdl, ?_, fun k => hdist _ k⟩
    unfold main
    rw [hdl]
    rfl
  · have hdl : download_database_file resp = .error (.missingEntry "MASTER.txt") := by
      unfold download_database_file
      rw [if_neg (Nat.not_le.mpr hstatus), har]
      show (if "MASTER.txt" ∉ namelist ar then _ else _) = _
      rw [if_pos hM]
    refine ⟨"MASTER.txt", Or.inl rfl, hdl, ?_, fun k => hdist _ k⟩
    unfold main
    rw [hdl]
    rfl

/-- A successful download whose well-formed archive lacks `ACFTREF.txt`. -/
def c7Resp : HttpResponse := ⟨200, some ⟨[("MASTER.txt", ⟨none, []⟩)]⟩⟩

theorem C7_witness :
    download_database_file c7Resp = .error (.missingEntry "ACFTREF.txt") ∧
    main none none c7Resp = .error (.missingEntry "ACFTREF.txt") := by
  obtain ⟨n, hn, hdl, hmain, hdist⟩ := @C7_missing_entry c7Resp
    ⟨[("MASTER.txt", ⟨none, []⟩)]⟩ (by decide) rfl (Or.inr (by decide))
  have he : (Except.error (PyErr.missingEntry "ACFTREF.txt") :
      Except PyErr (RefMap × List RegistrationRecord)) = .error (.missingEntry n) := hdl
  injection he with h1
  injection h1 with h2
  subst h2
  exact ⟨hdl, hmain⟩

/-! ## Claim C8 -/

/-- A registration table whose row's `TYPE REGISTRANT` value is `" 1"` —
code 1 padded with a leading space. -/
def c8PadSrc : Source :=
  ⟨true, ⟨some ["N-NUMBER", "MFR MDL CODE", "YEAR MFR", "NAME", "CITY",
    "STATE", "MODE S CODE HEX", "TYPE REGISTRANT"],
    [["N1", "AAA", "2005", "Jane", "Austin", "TX", "A1", " 1"]]⟩⟩

/-- C8 counterexample: not every string field is trimmed before use — the
registrant-type code is looked up raw, so the padded code `" 1"` maps to
"Unknown" although its trimmed form `"1"` maps to "Individual". -/
theorem C8_counterexample :
    process_aircraft_registration_file c8PadSrc = .ok
      [{ tail_number := "N1", aircraft_reference_code := "AAA",
         year := "2005", owner_name := "Jane", city := "Austin", state := "TX",
         mode_s_hex := "A1", registrant_type := "Unknown" }] ∧
    pstrip " 1" = "1" ∧
    registrantTypeOf (some "1") = "Individual" := by
  exact ⟨rfl, rfl, rfl⟩

/-- C8 amended: all textual fields except the registrant-type code are
trimmed before use (the registrant-type code is used raw in the enumeration
lookup); nevertheless every textual field of every row of the emitted
output — header included — carries no leading or trailing whitespace. -/
theorem C8_amended (reference_src registration_src : Source)
    (resp : HttpResponse) (out : List (List String))
    (h : main (some registration_src) (some reference_src) resp = .ok out) :
    ∀ row ∈ out, ∀ f ∈ row, noEdgeWS f = true := by
  have h0 : (do
      let aircraft_reference ← process_aircraft_reference_file reference_src
      let aircraft_registrations ← process_aircraft_registration_file registration_src
      Except.ok (create_emcomm_tools_file aircraft_registrations aircraft_reference) :
      Except PyErr (List (List String))) = Except.ok out := h
  rcases href : process_aircraft_reference_file reference_src with e | m <;>
    rw [href] at h0
  · exact Except.noConfusion h0
  rcases hreg : process_aircraft_registration_file registration_src with e | regs <;>
    rw [hreg] at h0
  · exact Except.noConfusion h0
  have h' : Except.ok (ε := PyErr) (create_emcomm_tools_file regs m) = .ok out := h0
  cases h'
  intro row hrow f hf
  unfold create_emcomm_tools_file at hrow
  rcases List.mem_cons.mp hrow with rfl | hrow'
  · have hall : ∀ g ∈ fieldnames, noEdgeWS g = true := by decide
    exact hall f hf
  · obtain ⟨r, hr, rfl⟩ := List.mem_map.mp hrow'
    obtain ⟨⟨v1, e1⟩, ⟨v2, e2⟩, ⟨v3, e3⟩, ⟨v4, e4⟩, ⟨v5, e5⟩, ⟨v6, e6⟩,
      ⟨v7, e7⟩, ⟨v8, _, e8⟩⟩ :=
      regRow_inv (process_reg_inv hreg r hr).choose_spec.choose_spec
    unfold outputRow at hf
    rcases hme : m (some r.aircraft_reference_code) with _ | en <;>
      rw [hme] at hf <;>
      simp only [List.mem_cons, List.not_mem_nil, or_false] at hf
    · rcases hf with rfl | rfl | rfl | rfl | rfl | rfl | rfl | rfl | rfl
      · rw [e1]; exact noEdgeWS_pstrip v1
      · decide
      · decide
      · rw [e3]; exact noEdgeWS_pstrip v3
      · rw [e4]; exact noEdgeWS_pstrip v4
      · rw [e5]; exact noEdgeWS_pstrip v5
      · rw [e6]; exact noEdgeWS_pstrip v6
      · rw [e7]; exact noEdgeWS_pstrip v7
      · rw [e8]; exact noEdgeWS_registrantTypeOf v8
    · obtain ⟨⟨vm, em⟩, ⟨vd, ed⟩⟩ := process_ref_entries href _ en hme
      rcases hf with rfl | rfl | rfl | rfl | rfl | rfl | rfl | rfl | rfl
      · rw [e1]; exact noEdgeWS_pstrip v1
      · rw [em]; exact noEdgeWS_pstrip vm
      · rw [ed]; exact noEdgeWS_pstrip vd
      · rw [e3]; exact noEdgeWS_pstrip v3
      · rw [e4]; exact noEdgeWS_pstrip v4
      · rw [e5]; exact noEdgeWS_pstrip v5
      · rw [e6]; exact noEdgeWS_pstrip v6
      · rw [e7]; exact noEdgeWS_pstrip v7
      · rw [e8]; exact noEdgeWS_registrantTypeOf v8

/-- A well-formed reference table with padded values. -/
def c8RefSrc : Source :=
  ⟨true, ⟨some ["CODE", "MFR", "MODEL"], [["ABC", " CESSNA ", " 172S "]]⟩⟩

/-- A well-formed registration table with padded values. -/
def c8RegSrc : Source :=
  ⟨true, ⟨some ["N-NUMBER", "MFR MDL CODE", "YEAR MFR", "NAME", "CITY",
    "STATE", "MODE S CODE HEX", "TYPE REGISTRANT"],
    [[" N12345 ", "ABC", " 2005 ", " Jane Doe ", " Austin ", " TX ",
      " A12345 ", "1"]]⟩⟩

theorem C8_witness : noEdgeWS "Jane Doe" = true := by
  have h := C8_amended c8RefSrc c8RegSrc ⟨200, none⟩
    [["tail_number", "make", "model", "year", "owner_name", "city", "state",
      "mode_s_hex", "registrant_type"],
     ["N12345", "CESSNA", "172S", "2005", "Jane Doe", "Austin", "TX",
      "A12345", "Individual"]] rfl
  exact h ["N12345", "CESSNA", "172S", "2005", "Jane Doe", "Austin", "TX",
    "A12345", "Individual"] (by decide) "Jane Doe" (by decide)

/-! ## Claim C10 -/

/-- A reference table with a whitespace-padded code `" 111"` and a second
row whose raw code equals the trimmed form `"111"`. -/
def c10RefSrc : Source :=
  ⟨true, ⟨some ["CODE", "MFR", "MODEL"],
    [[" 111", "A", "B"], ["111", "C", "D"]]⟩⟩

/-- A registration referencing `" 111"` (trimmed to `"111"` by the loader). -/
def c10RegSrc : Source :=
  ⟨true, ⟨some ["N-NUMBER", "MFR MDL CODE", "YEAR MFR", "NAME", "CITY",
    "STATE", "MODE S CODE HEX", "TYPE REGISTRANT"],
    [["N1", " 111", "2005", "J", "Austin", "TX", "A1", "1"]]⟩⟩

/-- C10 counterexample: a registration referencing the whitespace-padded
code `" 111"` does NOT emit "Unknown" make/model — its trimmed code `"111"`
resolves to the other reference row (`C`/`D`), refuting the claim's "such
registrations emit Unknown make and model". -/
theorem C10_counterexample :
    main (some c10RegSrc) (some c10RefSrc) ⟨200, none⟩ = .ok
      [["tail_number", "make", "model", "year", "owner_name", "city", "state",
        "mode_s_hex", "registrant_type"],
       ["N1", "C", "D", "2005", "J", "Austin", "TX", "A1", "Individual"]] ∧
    (pstrip " 111" == " 111") = false := by
  exact ⟨rfl, rfl⟩

/-- `del d[k]` — used only to state that a binding is never consulted. -/
def refDelete (m : RefMap) (k : Option String) : RefMap :=
  fun k' => if k' = k then none else m k'

/-- C10 amended: the reference mapping is keyed by the raw, untrimmed CODE
value while each registration's code is trimmed before lookup, so a binding
whose key has leading or trailing whitespace is never consulted — deleting
it leaves every emitted row unchanged — and a registration whose code trims
to that key emits "Unknown" make and model *provided* no other reference row
bound the trimmed code itself. -/
theorem C10_amended (reference_src registration_src : Source) {m : RefMap}
    {regs : List RegistrationRecord} {s : String}
    (href : process_aircraft_reference_file reference_src = .ok m)
    (hreg : process_aircraft_registration_file registration_src = .ok regs)
    (hws : pstrip s ≠ s) :
    (∀ r ∈ regs, outputRow m r = outputRow (refDelete m (some s)) r) ∧
    (∀ r ∈ regs, r.aircraft_reference_code = pstrip s →
      m (some (pstrip s)) = none →
      outputRow m r = [r.tail_number, "Unknown", "Unknown", r.year,
        r.owner_name, r.city, r.state, r.mode_s_hex, r.registrant_type]) := by
  have hfix : ∀ r ∈ regs, pstrip r.aircraft_reference_code = r.aircraft_reference_code := by
    intro r hr
    obtain ⟨_, ⟨v, hv⟩, _⟩ :=
      regRow_inv (process_reg_inv hreg r hr).choose_spec.choose_spec
    rw [hv]
    exact pstrip_pstrip v
  constructor
  · intro r hr
    have hne : (some r.aircraft_reference_code : Option String) ≠ some s := by
      intro he
      have : r.aircraft_reference_code = s := Option.some.inj he
      apply hws
      rw [← this]
      exact hfix r hr
    unfold outputRow refDelete
    rw [if_neg hne]
  · intro r hr hcode hnone
    unfold outputRow
    rw [hcode, hnone]

theorem C10_witness :
    outputRow
      (refUpdate emptyRefMap (some " 222") ⟨"A", "B"⟩)
      ⟨"N2", "222", "2005", "J", "A", "T", "H", "Individual"⟩ =
      ["N2", "Unknown", "Unknown", "2005", "J", "A", "T", "H", "Individual"] := by
  have h := @C10_amended
    (⟨true, ⟨some ["CODE", "MFR", "MODEL"], [[" 222", "A", "B"]]⟩⟩ : Source)
    (⟨true, ⟨some ["N-NUMBER", "MFR MDL CODE", "YEAR MFR", "NAME", "CITY",
      "STATE", "MODE S CODE HEX", "TYPE REGISTRANT"],
      [["N2", " 222", "2005", "J", "A", "T", "H", "1"]]⟩⟩ : Source)
    (refUpdate emptyRefMap (some " 222") ⟨"A", "B"⟩)
    [⟨"N2", "222", "2005", "J", "A", "T", "H", "Individual"⟩]
    " 222" rfl rfl (by decide)
  exact h.2 ⟨"N2", "222", "2005", "J", "A", "T", "H", "Individual"⟩
    (List.mem_cons_self _ _) (by decide) (by decide)

end Faa2Etc
